import Mathlib

/-
Verification of the visread visibility-processing module
(`src/visread/process.py`) against its natural-language specification.

Arrays are embedded as nested Lean lists over the rationals; complex
values are pairs of rationals.  Functions are translated from the Python
source; the measurement-set reader (`get_channels`, `query_datadescid`)
and three pipeline helpers (`broadcast_baselines`, `average_polarizations`,
`get_crosscorrelation_mask`) are not part of the source tree and are
modelled from the specification where noted.  The pipeline's own call
`broadcast_weights(weight, nchan)` passes an int where a shape tuple is
expected and raises a TypeError; `get_processed_visibilities` embeds
that faithfully, while `get_processed_visibilities_intended` states the
specified behavior with the slip repaired.
-/

namespace Visread

/-- Complex number with rational components, the embedding of the complex
visibility values. -/
structure CQ where
  re : ℚ
  im : ℚ
deriving DecidableEq

/-- Complex zero. -/
def CQ.zero : CQ := ⟨0, 0⟩

/-- Complex addition. -/
def CQ.add (x y : CQ) : CQ := ⟨x.re + y.re, x.im + y.im⟩

/-- Multiplication of a complex value by a rational scalar (the only
complex multiplication the source performs: data times real weight). -/
def CQ.mulQ (x : CQ) (q : ℚ) : CQ := ⟨x.re * q, x.im * q⟩

/-- Division of a complex value by a rational scalar (normalisation by a
real weight sum). -/
def CQ.divQ (x : CQ) (q : ℚ) : CQ := ⟨x.re / q, x.im / q⟩

/-- Complex conjugate, the embedding of `np.conj`. -/
def CQ.conj (x : CQ) : CQ := ⟨x.re, -x.im⟩

/-- 1-D real array. -/
abbrev Vec := List ℚ

/-- 2-D real array. -/
abbrev Mat := List (List ℚ)

/-- 3-D real array. -/
abbrev Arr3 := List (List (List ℚ))

/-- 2-D complex array. -/
abbrev CMat := List (List CQ)

/-- 3-D complex array. -/
abbrev CArr3 := List (List (List CQ))

/-- 2-D boolean array. -/
abbrev BMat := List (List Bool)

/-- 3-D boolean array. -/
abbrev BArr3 := List (List (List Bool))

/-- Elementwise sum of two 1-D arrays. -/
def vecAdd (a b : Vec) : Vec := List.zipWith (· + ·) a b

/-- Elementwise sum of two 2-D arrays. -/
def matAdd (a b : Mat) : Mat := List.zipWith vecAdd a b

/-- `np.sum(-, axis=0)` on a 2-D array (fold of the rows; the source only
sums nonempty polarization axes). -/
def sumAxis0 : Mat → Vec
  | [] => []
  | r :: rs => rs.foldl vecAdd r

/-- `np.sum(-, axis=0)` on a 3-D array. -/
def sumAxis0₃ : Arr3 → Mat
  | [] => []
  | r :: rs => rs.foldl matAdd r

/-- `average_weight_polarization(weight, polarization_axis=0)` from the
source: sum of the weights over the polarization axis, for a
`(npol, nvis)` weight array. -/
def average_weight_polarization (weight : Mat) : Vec := sumAxis0 weight

/-- `average_weight_polarization` at rank 3, for a `(npol, nchan, nvis)`
weight array (the source function is rank-polymorphic via `np.sum`). -/
def average_weight_polarization₃ (weight : Arr3) : Mat := sumAxis0₃ weight

/-- Elementwise `or` of two boolean rows. -/
def vecOr (a b : List Bool) : List Bool := List.zipWith (· || ·) a b

/-- Elementwise `or` of two boolean matrices. -/
def matOr (a b : BMat) : BMat := List.zipWith vecOr a b

/-- `average_flag_polarization(flag, polarization_axis=0)` from the
source: `np.any` over the polarization axis of a `(npol, nvis)` array. -/
def average_flag_polarization (flag : BMat) : List Bool :=
  match flag with
  | [] => []
  | r :: rs => rs.foldl vecOr r

/-- `average_flag_polarization` at rank 3 for `(npol, nchan, nvis)`. -/
def average_flag_polarization₃ (flag : BArr3) : BMat :=
  match flag with
  | [] => []
  | r :: rs => rs.foldl matOr r

/-- Error message for a numpy broadcast failure (ValueError). -/
def broadcastErrMsg : String :=
  "operands could not be broadcast together"

/-- Error message for a tuple index out of range (IndexError). -/
def indexErrMsg : String :=
  "tuple index out of range"

/-- `broadcast_weights(weight, data_shape, chan_axis)` from the source,
at the rank the docstring describes (1-D weight of shape `(nvis,)`,
already averaged over polarizations):
`nchan = data_shape[chan_axis]; return weight[np.newaxis, :] * np.ones((nchan, 1))`,
which replicates the weight row across `nchan` channels. -/
def broadcast_weights₁ (weight : Vec) (data_shape : List ℕ) (chan_axis : ℕ) :
    Except String Mat :=
  if h : chan_axis < data_shape.length then
    let nchan := data_shape.get ⟨chan_axis, h⟩
    .ok (List.replicate nchan weight)
  else .error indexErrMsg

/-- `broadcast_weights` applied to a 2-D weight of shape `(npol, nvis)`.
Under numpy broadcasting `weight[np.newaxis, :]` has shape
`(1, npol, nvis)` and `np.ones((nchan, 1))` pads to `(1, nchan, 1)`, so
the product exists only when `npol in a singleton relation with nchan`:
if `npol = 1` the row is replicated `nchan` times, if `nchan = 1` or
`npol = nchan` the weight passes through unchanged, and any other
combination raises a broadcast ValueError.  The result always keeps the
leading length-one axis. -/
def broadcast_weights₂ (weight : Mat) (data_shape : List ℕ) (chan_axis : ℕ) :
    Except String Arr3 :=
  if h : chan_axis < data_shape.length then
    let nchan := data_shape.get ⟨chan_axis, h⟩
    let npol := weight.length
    if npol = 1 then .ok [List.replicate nchan (weight.getD 0 [])]
    else if nchan = 1 then .ok [weight]
    else if npol = nchan then .ok [weight]
    else .error broadcastErrMsg
  else .error indexErrMsg

/-- Error message of a Python scalar division by zero. -/
def zeroDivMsg : String := "float division by zero"

/-- `rescale_weights(weight, sigma_rescale)` from the source:
`weight / sigma_rescale ** 2` elementwise on a 1-D weight array.  The
zero-divisor branch here follows Python scalar-float semantics (a
`ZeroDivisionError`); a numpy array weight instead keeps going with
inf values, which `rescale_weights_array` below embeds.  The claims
that use this embedding only touch the nonzero-divisor branch. -/
def rescale_weights (weight : Vec) (sigma_rescale : ℚ) : Except String Vec :=
  if sigma_rescale ^ 2 = 0 then .error zeroDivMsg
  else .ok (weight.map (fun w => w / sigma_rescale ^ 2))

/-- `rescale_weights` at rank 3, for the pipeline weight of shape
`(npol, nchan, nvis)` (zero-divisor branch as in `rescale_weights`;
only the nonzero branch is ever used by the theorems). -/
def rescale_weights₃ (weight : Arr3) (sigma_rescale : ℚ) : Except String Arr3 :=
  if sigma_rescale ^ 2 = 0 then .error zeroDivMsg
  else .ok (weight.map (fun m => m.map (fun r => r.map (fun w => w / sigma_rescale ^ 2))))

/-- An IEEE-style float result: a finite (exact rational) value, a
signed infinity, or nan.  Finite arithmetic is kept exact; only the
division-by-zero outcomes of numpy need the non-finite values. -/
inductive PyFloat where
  | val : ℚ → PyFloat
  | posInf : PyFloat
  | negInf : PyFloat
  | nan : PyFloat
deriving DecidableEq

/-- Float division as numpy performs it elementwise: a zero divisor
yields inf, -inf or nan according to the sign of the numerator (and a
RuntimeWarning, which is not an exception); a nonzero divisor yields
the exact quotient. -/
def pydiv (x d : ℚ) : PyFloat :=
  if d = 0 then (if 0 < x then .posInf else if x < 0 then .negInf else .nan)
  else .val (x / d)

/-- `rescale_weights(weight, sigma_rescale)` on a numpy array weight,
with numpy float semantics: `weight / sigma_rescale ** 2` elementwise,
and a zero rescale factor produces non-finite entries instead of
raising. -/
def rescale_weights_array (weight : Vec) (sigma_rescale : ℚ) : List PyFloat :=
  weight.map (fun w => pydiv w (sigma_rescale ^ 2))

/-- `astropy.constants.c.value`: the speed of light in meters per second. -/
def cval : ℚ := 299792458

/-- `convert_baselines(baselines, freq)` from the source, at the rank used
by the claims (1-D baseline array, scalar frequency):
`wavelengths = c.value / freq; return 1e-3 * baselines / wavelengths`. -/
def convert_baselines (baselines : Vec) (freq : ℚ) : Vec :=
  baselines.map (fun b => 1 / 1000 * b / (cval / freq))

/-- `broadcast_and_convert_baselines(u, v, chan_freq)` from the source:
each baseline vector is replicated across the `nchan` channels
(`u * np.ones((nchan, 1))`) and then converted per channel by that
channel wavelength (`1e-3 * uu / (c.value / chan_freq[:, np.newaxis])`). -/
def broadcast_and_convert_baselines (u v chan_freq : Vec) : Mat × Mat :=
  let uu := (List.zip (chan_freq.map (fun _ => u)) chan_freq).map
    (fun p => p.1.map (fun x => 1 / 1000 * x / (cval / p.2)))
  let vv := (List.zip (chan_freq.map (fun _ => v)) chan_freq).map
    (fun p => p.1.map (fun x => 1 / 1000 * x / (cval / p.2)))
  (uu, vv)

/-- A complex data array of one of the two ranks the data model admits
(`(npol, nvis)` or `(npol, nchan, nvis)`), tagged by rank so the rank
dispatch of `average_data_polarization` can be embedded. -/
inductive CArr where
  | a2 : CMat → CArr
  | a3 : CArr3 → CArr

/-- A real weight array of rank 1, 2 or 3, tagged by rank. -/
inductive QArr where
  | a1 : Vec → QArr
  | a2 : Mat → QArr
  | a3 : Arr3 → QArr

/-- Result of `average_data_polarization`: the polarization axis is
summed away, so the rank drops by one. -/
inductive CRes where
  | a1 : List CQ → CRes
  | a2 : CMat → CRes
deriving DecidableEq

/-- `np.shape` of a (rectangular) tagged complex array. -/
def CArr.shape : CArr → List ℕ
  | .a2 m => [m.length, (m.getD 0 []).length]
  | .a3 t => [t.length, (t.getD 0 []).length, ((t.getD 0 []).getD 0 []).length]

/-- Number of entries of `np.shape`, i.e. the rank. -/
def CArr.ndim : CArr → ℕ
  | .a2 _ => 2
  | .a3 _ => 3

/-- `np.shape` of a (rectangular) tagged real array. -/
def QArr.shape : QArr → List ℕ
  | .a1 v => [v.length]
  | .a2 m => [m.length, (m.getD 0 []).length]
  | .a3 t => [t.length, (t.getD 0 []).length, ((t.getD 0 []).getD 0 []).length]

/-- Rank of a tagged real array. -/
def QArr.ndim : QArr → ℕ
  | .a1 _ => 1
  | .a2 _ => 2
  | .a3 _ => 3

/-- Message of the failed dual-polarization assertion in
`average_data_polarization`. -/
def dualPolMsg : String := "Not recognized as a dual-polarization dataset"

/-- Message of the unrecognized-shapes branch of
`average_data_polarization`; it spells out both offending shapes
(the source formats the two numpy shape tuples into the message). -/
def shapeMismatchMsg (dshape wshape : List ℕ) : String :=
  "do not know what to do with provided data and weight arrays with shapes " ++
    toString dshape ++ " and " ++ toString wshape ++ ", respectively"

/-- Elementwise product of a complex row with a real row. -/
def rowMul (d : List CQ) (w : Vec) : List CQ := List.zipWith CQ.mulQ d w

/-- Elementwise product of a complex matrix with a real matrix. -/
def matMul (d : CMat) (w : Mat) : CMat := List.zipWith rowMul d w

/-- Elementwise sum of two complex rows. -/
def cVecAdd (a b : List CQ) : List CQ := List.zipWith CQ.add a b

/-- Elementwise sum of two complex matrices. -/
def cMatAdd (a b : CMat) : CMat := List.zipWith cVecAdd a b

/-- `np.sum(-, axis=0)` on a 3-D complex array. -/
def cSumAxis0₃ : CArr3 → CMat
  | [] => []
  | r :: rs => rs.foldl cMatAdd r

/-- `np.sum(-, axis=0)` on a 2-D complex array. -/
def cSumAxis0 : CMat → List CQ
  | [] => []
  | r :: rs => rs.foldl cVecAdd r

/-- Elementwise division of a complex row by a real row. -/
def rowDiv (d : List CQ) (w : Vec) : List CQ := List.zipWith CQ.divQ d w

/-- `average_data_polarization(data, weight, polarization_axis=0)` from
the source: assert the polarization axis has length 2, compute the
normalisation `average_weight_polarization(weight)`, then dispatch on the
ranks: equal ranks multiply elementwise, data rank 3 with weight rank 2
broadcasts the weight across the channel axis
(`weight[:, np.newaxis, :]`), and any other combination raises an error
naming both shapes. -/
def average_data_polarization (data : CArr) (weight : QArr) :
    Except String CRes :=
  if data.shape.getD 0 0 = 2 then
    match data, weight with
    | .a2 d, .a2 w =>
        .ok (.a1 (rowDiv (cSumAxis0 (matMul d w)) (average_weight_polarization w)))
    | .a3 d, .a3 w =>
        .ok (.a2 (List.zipWith rowDiv
          (cSumAxis0₃ (List.zipWith matMul d w))
          (average_weight_polarization₃ w)))
    | .a3 d, .a2 w =>
        .ok (.a2 ((cSumAxis0₃ (List.zipWith (fun dm wr => dm.map (fun r => rowMul r wr)) d w)).map
          (fun row => rowDiv row (average_weight_polarization w))))
    | d, w => .error (shapeMismatchMsg d.shape w.shape)
  else .error dualPolMsg

/-- `contains_autocorrelations(ant1, ant2)` from the source: build the
elementwise equality mask and test whether its sum is positive. -/
def contains_autocorrelations (ant1 ant2 : List ℤ) : Bool :=
  decide (0 < ((List.zip ant1 ant2).map (fun p => decide (p.1 = p.2))).count true)

/-- `np.where(mask)[0]` on a 1-D boolean mask: the positions of the true
entries, in increasing order. -/
def np_where : List Bool → List ℕ
  | [] => []
  | b :: t =>
      let rest := (np_where t).map (· + 1)
      if b then 0 :: rest else rest

/-- `get_crosscorrelation_indexes(ant1, ant2)` from the source:
`np.where(ant1 != ant2)[0]`. -/
def get_crosscorrelation_indexes (ant1 ant2 : List ℤ) : List ℕ :=
  np_where ((List.zip ant1 ant2).map (fun p => decide (p.1 ≠ p.2)))

/-- `np.diff` of a 1-D array: successive differences. -/
def npDiff (l : Vec) : Vec := (List.zip l l.tail).map (fun p => p.2 - p.1)

/-- Message of the non-monotonic channel error in `isdecreasing`. -/
def nonMonotonicMsg : String :=
  "chan_freq array is neither strictly decreasing nor strictly increasing, investigate what went wrong."

/-- `isdecreasing(chan_freq)` from the source: length one is decreasing;
otherwise look at the first differences, all negative means decreasing,
all positive means increasing, anything else raises. -/
def isdecreasing (chan_freq : Vec) : Except String Bool :=
  if chan_freq.length = 1 then .ok true
  else
    let diff := npDiff chan_freq
    if diff.all (fun d => decide (d < 0)) then .ok true
    else if diff.all (fun d => decide (0 < d)) then .ok false
    else .error nonMonotonicMsg

/-- `reverse_array(array, channel_axis=1)` from the source applied to a
3-D `(npol, nchan, nvis)` array: `np.flip` along axis 1. -/
def reverseChan (a : CArr3) : CArr3 := a.map List.reverse

/-- `np.flip` along axis 1 of a boolean `(npol, nchan, nvis)` array. -/
def reverseChanB (a : BArr3) : BArr3 := a.map List.reverse

/-- `get_channel_sorted_data(filename, datadescid)` from the source.  The
measurement-set reads (`get_channels`, `query_datadescid`) are external
collaborators not under the source tree, so the fetched channel
frequencies, data, model data and flags are taken as inputs; the
reversal logic is translated verbatim: when `nchan > 1` and
`chan_freq[1] > chan_freq[0]`, reverse the frequencies and flip data,
model data and flags along the channel axis. -/
def get_channel_sorted_data (chan_freq : Vec) (data model_data : CArr3)
    (flag : BArr3) : Vec × CArr3 × CArr3 × BArr3 :=
  if 1 < chan_freq.length ∧ chan_freq.getD 0 0 < chan_freq.getD 1 0 then
    (chan_freq.reverse, reverseChan data, reverseChan model_data, reverseChanB flag)
  else
    (chan_freq, data, model_data, flag)

/-- Modelled from the spec: the VisibilityQuery record of spec section 3,
returned by the external measurement-set reader `query_datadescid` and
`get_channels`, which are not under the source tree.  One spectral
window: channel frequencies, the three uvw baseline coordinates, data and
model data of shape `(npol, nchan, nvis)`, flags of the same shape,
weights of shape `(npol, nvis)` and the two antenna id sequences. -/
structure VisibilityQuery where
  chan_freq : Vec
  u : Vec
  v : Vec
  w : Vec
  data : CArr3
  model_data : CArr3
  flag : BArr3
  weight : Mat
  antenna1 : List ℤ
  antenna2 : List ℤ

/-- The ProcessedVisibilityRecord: the mapping returned by the pipeline,
with exactly the keys `frequencies`, `uu`, `vv`, `data`, `model_data`,
`flag`, `weight` as fields. -/
structure ProcessedVis where
  frequencies : Vec
  uu : Mat
  vv : Mat
  data : CMat
  model_data : CMat
  flag : BMat
  weight : Mat
deriving DecidableEq

/-- Message of the TypeError raised when Python subscripts an int. -/
def intSubscriptMsg : String := "int object is not subscriptable"

/-- The weight broadcast exactly as the pipeline invokes it at source
line 278: `broadcast_weights(weight, nchan)` passes the integer channel
count where the callee (source lines 22-39) expects the shape tuple
`data_shape`; the callee's first expression `data_shape[chan_axis]`
subscripts that int, so the call raises a TypeError before touching the
weights, whatever their value. -/
def broadcast_weights_int_shape (_weight : Mat) (_nchan : ℕ) :
    Except String Arr3 :=
  .error intSubscriptMsg

/-- Modelled from the spec: the weight broadcast the pipeline is meant
to perform (spec section 4.6 step 4 together with section 4.2, output
`[npol, nchan, nvis]`).  The source instead passes the bare integer
`nchan` to `broadcast_weights` (see `broadcast_weights_int_shape`); this
definition is used only by the `intended` variant of the pipeline that
states the specified end-to-end behavior. -/
def pipeline_broadcast_weights (weight : Mat) (nchan : ℕ) : Arr3 :=
  weight.map (fun row => List.replicate nchan row)

/-- Fancy indexing `m[:, xc]`: from every row keep the columns listed in
`xc`, in that order. -/
def selectCols (xc : List ℕ) (m : List (List α)) : List (List α) :=
  m.map (fun row => xc.filterMap (fun i => row.get? i))

/-- Modelled from the spec: the pipeline's `average_polarizations(data,
flag, weight, model_data)` (spec section 4.6 step 5), not under the
source tree: reduce data and model data with
`average_data_polarization`, flags with `average_flag_polarization` and
weights with `average_weight_polarization`, all across the polarization
axis.  The rank of a reduced `(npol, nchan, nvis)` data array is always
2; the final branch is type-level glue for the rank tags. -/
def average_polarizations (data : CArr3) (flag : BArr3) (weight : Arr3)
    (model_data : CArr3) :
    Except String (CMat × BMat × Mat × CMat) := do
  let d ← average_data_polarization (.a3 data) (.a3 weight)
  let md ← average_data_polarization (.a3 model_data) (.a3 weight)
  match d, md with
  | .a2 d2, .a2 md2 =>
      .ok (d2, average_flag_polarization₃ flag, average_weight_polarization₃ weight, md2)
  | _, _ => .error "unexpected rank after polarization average"

/-- Complex conjugate of every entry of a matrix (`np.conj`). -/
def conjMat (m : CMat) : CMat := m.map (fun row => row.map CQ.conj)

/-- `get_processed_visibilities(filename, datadescid, sigma_rescale,
model_data)` from the source, with the external query replaced by a
`VisibilityQuery` input.  Steps follow the source order: channel
canonicalization, baseline broadcast and conversion (the source's
`broadcast_baselines` is not under the source tree; spec section 4.6
step 3 binds it to `broadcast_and_convert_baselines`), the weight
broadcast exactly as the source writes it — `broadcast_weights(weight,
nchan)` with the integer `nchan`, which raises a TypeError
(`broadcast_weights_int_shape`) — then rescale, polarization reduction,
cross-correlation selection (`get_crosscorrelation_mask` is bound to
`get_crosscorrelation_indexes` by spec step 6), conjugation, and
assembly of the record. -/
def get_processed_visibilities (q : VisibilityQuery) (sigma_rescale : ℚ) :
    Except String ProcessedVis := do
  let s := get_channel_sorted_data q.chan_freq q.data q.model_data q.flag
  let chan_freq := s.1
  let nchan := chan_freq.length
  let bb := broadcast_and_convert_baselines q.u q.v chan_freq
  let w₃ ← broadcast_weights_int_shape q.weight nchan
  let weight₃ ← rescale_weights₃ w₃ sigma_rescale
  let a ← average_polarizations s.2.1 s.2.2.2 weight₃ s.2.2.1
  let xc := get_crosscorrelation_indexes q.antenna1 q.antenna2
  .ok
    { frequencies := chan_freq
      uu := selectCols xc bb.1
      vv := selectCols xc bb.2
      data := conjMat (selectCols xc a.1)
      model_data := conjMat (selectCols xc a.2.2.2)
      flag := selectCols xc a.2.1
      weight := selectCols xc a.2.2.1 }

/-- Modelled from the spec: the pipeline of section 4.6 with the
line-278 slip repaired, i.e. `get_processed_visibilities` with the
broadcast step replaced by the specified `[npol, nchan, nvis]`
replication (`pipeline_broadcast_weights`).  This variant only serves
to state the intended end-to-end behavior; the program itself raises,
see `get_processed_visibilities`. -/
def get_processed_visibilities_intended (q : VisibilityQuery)
    (sigma_rescale : ℚ) : Except String ProcessedVis := do
  let s := get_channel_sorted_data q.chan_freq q.data q.model_data q.flag
  let chan_freq := s.1
  let nchan := chan_freq.length
  let bb := broadcast_and_convert_baselines q.u q.v chan_freq
  let weight₃ ← rescale_weights₃ (pipeline_broadcast_weights q.weight nchan) sigma_rescale
  let a ← average_polarizations s.2.1 s.2.2.2 weight₃ s.2.2.1
  let xc := get_crosscorrelation_indexes q.antenna1 q.antenna2
  .ok
    { frequencies := chan_freq
      uu := selectCols xc bb.1
      vv := selectCols xc bb.2
      data := conjMat (selectCols xc a.1)
      model_data := conjMat (selectCols xc a.2.2.2)
      flag := selectCols xc a.2.1
      weight := selectCols xc a.2.2.1 }

/-! ### Generic list access lemmas -/

/-- `getD` through `map`, at a valid index. -/
theorem getD_map_lt {α β : Type} (f : α → β) (l : List α) (i : ℕ)
    (h : i < l.length) (d : β) (d₀ : α) :
    (l.map f).getD i d = f (l.getD i d₀) := by
  rw [List.getD_eq_getElem _ _ (by simpa using h), List.getD_eq_getElem _ _ h,
    List.getElem_map]

/-- `getD` through `zipWith`, at an index valid on both sides. -/
theorem getD_zipWith_lt {α β γ : Type} (f : α → β → γ) (a : List α)
    (b : List β) (i : ℕ) (ha : i < a.length) (hb : i < b.length) (d : γ)
    (da : α) (db : β) :
    (List.zipWith f a b).getD i d = f (a.getD i da) (b.getD i db) := by
  rw [List.getD_eq_getElem _ _ (by simp [List.length_zipWith]; omega),
    List.getD_eq_getElem _ _ ha, List.getD_eq_getElem _ _ hb]
  exact List.getElem_zipWith

/-- `getD` through `List.replicate`, at a valid index. -/
theorem getD_replicate_lt {α : Type} (n : ℕ) (x : α) (i : ℕ) (h : i < n)
    (d : α) : (List.replicate n x).getD i d = x := by
  rw [List.getD_eq_getElem _ _ (by simpa using h)]
  exact List.getElem_replicate ..

/-- `getD` through `List.reverse`, at a valid index. -/
theorem getD_reverse_lt {α : Type} (l : List α) (i : ℕ) (h : i < l.length)
    (d : α) : l.reverse.getD i d = l.getD (l.length - 1 - i) d := by
  rw [List.getD_eq_getElem _ _ (by simpa using h),
    List.getD_eq_getElem _ _ (by omega)]
  exact List.getElem_reverse _

/-! ### C10: rescaling with the default factor is the identity -/

/-- C10: `rescale_weights` with `sigma_rescale = 1.0` (the default of the
pipeline) is the identity on every weight array. -/
theorem rescale_weights_identity (w : Vec) : rescale_weights w 1 = .ok w := by
  simp [rescale_weights]

/-! ### C7: rescaling divides by the square; a zero factor does not
raise on array weights -/

/-- Counterexample for C7 as stated: on the numpy array weight
`[1, -2, 0]` with `sigma_rescale = 0`, the division `weight / 0.0`
returns a value — an array of inf, -inf and nan entries (with a
RuntimeWarning) — so the code does not signal an error there. -/
theorem rescale_weights_zero_counterexample :
    rescale_weights_array [1, -2, 0] 0 =
      [PyFloat.posInf, PyFloat.negInf, PyFloat.nan] := by
  norm_num [rescale_weights_array, pydiv]

/-- C7 (amended): for every nonzero rescale factor,
`rescale_weights` divides every weight by the squared factor; at
`sigma_rescale = 0` the numpy array division returns non-finite entries
(inf for positive, -inf for negative, nan for zero weights) instead of
signalling an error. -/
theorem rescale_weights_array_spec (w : Vec) (s : ℚ) :
    (s ≠ 0 → rescale_weights_array w s =
      w.map (fun x => PyFloat.val (x / s ^ 2))) ∧
    rescale_weights_array w 0 = w.map (fun x =>
      if 0 < x then PyFloat.posInf
      else if x < 0 then PyFloat.negInf else PyFloat.nan) := by
  constructor
  · intro hs
    rw [rescale_weights_array]
    apply List.map_congr_left
    intro x _
    rw [pydiv, if_neg (pow_ne_zero 2 hs)]
  · rw [rescale_weights_array]
    apply List.map_congr_left
    intro x _
    norm_num [pydiv]

/-- Witness for C7's amended claim at `weight = [4]`,
`sigma_rescale = 2` and `0`. -/
theorem rescale_weights_array_spec_witness :
    rescale_weights_array [(4 : ℚ)] 2 = [PyFloat.val 1] ∧
      rescale_weights_array [(4 : ℚ)] 0 = [PyFloat.posInf] := by
  constructor
  · rw [(rescale_weights_array_spec [(4 : ℚ)] 2).1 (by norm_num)]
    norm_num
  · rw [(rescale_weights_array_spec [(4 : ℚ)] 0).2]
    norm_num

/-! ### C4: weight broadcasting across channels -/

/-- C4 (amended): for a 1-D weight vector (no polarization axis),
`broadcast_weights` returns an `(nchan, nvis)` array every channel slice
of which is the input weight, where `nchan = data_shape[chan_axis]`. -/
theorem broadcast_weights_channel_replication (w : Vec) (ds : List ℕ)
    (ax : ℕ) (h : ax < ds.length) :
    ∃ r, broadcast_weights₁ w ds ax = .ok r ∧ r.length = ds.getD ax 0 ∧
      ∀ row ∈ r, row = w := by
  rw [broadcast_weights₁, dif_pos h]
  refine ⟨_, rfl, ?_, ?_⟩
  · rw [List.getD_eq_getElem ds 0 h]
    simp
  · intro row hrow
    exact (List.eq_of_mem_replicate hrow)

/-- Witness for C4's amended claim at `weight = [1, 2]`,
`data_shape = [3, 2]`, `chan_axis = 0`. -/
theorem broadcast_weights_channel_replication_witness :
    ∃ r, broadcast_weights₁ [(1 : ℚ), 2] [3, 2] 0 = .ok r ∧
      r.length = 3 ∧ ∀ row ∈ r, row = [(1 : ℚ), 2] := by
  simpa using broadcast_weights_channel_replication [(1 : ℚ), 2] [3, 2] 0
    (by norm_num)

/-- Counterexample for C4 as stated: a dual-polarization weight of shape
`(2, 3)` with `nchan = 3` does not broadcast to `(2, 3, 3)`; numpy
broadcasting of `(1, 2, 3)` against `(3, 1)` fails, so the call raises a
broadcast error instead of replicating across channels. -/
theorem broadcast_weights_polarization_counterexample :
    broadcast_weights₂ [[1, 2, 3], [4, 5, 6]] [3, 5] 0 =
      .error broadcastErrMsg := by
  rfl

/-! ### C5: isdecreasing detects the monotonicity sense -/

/-- `npDiff` on a list with two or more entries. -/
theorem npDiff_cons₂ (a b : ℚ) (t : Vec) :
    npDiff (a :: b :: t) = (b - a) :: npDiff (b :: t) := rfl

/-- All first differences are negative exactly on strictly decreasing
lists. -/
theorem npDiff_all_neg_iff (l : Vec) :
    (npDiff l).all (fun d => decide (d < 0)) = true ↔
      l.Chain' (fun a b => b < a) := by
  induction l with
  | nil => simp [npDiff]
  | cons a t ih =>
    cases t with
    | nil => simp [npDiff]
    | cons b t2 =>
      rw [npDiff_cons₂, List.chain'_cons, ← ih]
      simp only [List.all_cons, Bool.and_eq_true, decide_eq_true_eq, sub_neg]

/-- All first differences are positive exactly on strictly increasing
lists. -/
theorem npDiff_all_pos_iff (l : Vec) :
    (npDiff l).all (fun d => decide (0 < d)) = true ↔
      l.Chain' (fun a b => a < b) := by
  induction l with
  | nil => simp [npDiff]
  | cons a t ih =>
    cases t with
    | nil => simp [npDiff]
    | cons b t2 =>
      rw [npDiff_cons₂, List.chain'_cons, ← ih]
      simp only [List.all_cons, Bool.and_eq_true, decide_eq_true_eq, sub_pos]

/-- A list with at least two entries cannot be strictly decreasing and
strictly increasing at once. -/
theorem not_chain_both (l : Vec) (h : 2 ≤ l.length)
    (hdec : l.Chain' (fun a b => b < a)) (hinc : l.Chain' (fun a b => a < b)) :
    False := by
  match l, h with
  | a :: b :: t, _ =>
    rw [List.chain'_cons] at hdec hinc
    exact absurd hinc.1 (not_lt.mpr hdec.1.le)

/-- C5: `isdecreasing` returns `true` on arrays of length at most one;
on longer arrays it returns `true` exactly on strictly decreasing input,
`false` exactly on strictly increasing input, and raises the
non-monotonic error exactly when the input is neither. -/
theorem isdecreasing_monotonic_spec (l : Vec) :
    (l.length ≤ 1 → isdecreasing l = .ok true) ∧
    (2 ≤ l.length →
      ((isdecreasing l = .ok true ↔ l.Chain' (fun a b => b < a)) ∧
       (isdecreasing l = .ok false ↔ l.Chain' (fun a b => a < b)) ∧
       (isdecreasing l = .error nonMonotonicMsg ↔
         ¬ l.Chain' (fun a b => b < a) ∧ ¬ l.Chain' (fun a b => a < b)))) := by
  constructor
  · intro h1
    match l, h1 with
    | [], _ => rfl
    | [a], _ => rfl
  · intro h2
    have hne : ¬ l.length = 1 := by omega
    rw [isdecreasing, if_neg hne]
    by_cases hdec : (npDiff l).all (fun d => decide (d < 0)) = true
    · rw [if_pos hdec]
      have hd := (npDiff_all_neg_iff l).mp hdec
      refine ⟨by simp [hd], ?_, ?_⟩
      · constructor
        · intro heq
          exact Bool.noConfusion (Except.ok.inj heq)
        · intro hinc
          exact (not_chain_both l h2 hd hinc).elim
      · simp only [reduceCtorEq, false_iff, not_and, not_not]
        intro hc
        exact absurd hd hc
    · rw [if_neg hdec]
      have hnd : ¬ l.Chain' (fun a b => b < a) := fun hc =>
        hdec ((npDiff_all_neg_iff l).mpr hc)
      by_cases hinc : (npDiff l).all (fun d => decide (0 < d)) = true
      · rw [if_pos hinc]
        have hi := (npDiff_all_pos_iff l).mp hinc
        refine ⟨by simp [hnd], by simp [hi], ?_⟩
        simp only [reduceCtorEq, false_iff, not_and, not_not]
        intro _
        exact hi
      · rw [if_neg hinc]
        have hni : ¬ l.Chain' (fun a b => a < b) := fun hc =>
          hinc ((npDiff_all_pos_iff l).mpr hc)
        refine ⟨by simp [hnd], by simp [hni], ?_⟩
        simp only [true_iff]
        exact ⟨hnd, hni⟩

/-- Witness for C5 at the single-element array `[5]` and at the
decreasing array `[3, 2, 1]`. -/
theorem isdecreasing_monotonic_spec_witness :
    isdecreasing [(5 : ℚ)] = .ok true ∧
      isdecreasing [(3 : ℚ), 2, 1] = .ok true := by
  refine ⟨(isdecreasing_monotonic_spec [(5 : ℚ)]).1 (by norm_num), ?_⟩
  exact ((isdecreasing_monotonic_spec [(3 : ℚ), 2, 1]).2 (by norm_num)).1.mpr
    (by norm_num [List.chain'_cons])

/-! ### C9: cross-correlation index set versus autocorrelation test -/

/-- Membership in `np.where`: exactly the valid positions whose mask
entry is true. -/
theorem np_where_mem (mask : List Bool) (i : ℕ) :
    i ∈ np_where mask ↔ i < mask.length ∧ mask.getD i false = true := by
  induction mask generalizing i with
  | nil => simp [np_where]
  | cons b t ih =>
    cases i with
    | zero =>
      cases b <;> simp [np_where, List.getD]
    | succ j =>
      have hmem : j + 1 ∈ np_where (b :: t) ↔ j ∈ np_where t := by
        cases b <;> simp [np_where]
      rw [hmem, ih j]
      simp [List.getD_cons_succ]

/-- `np.where` returns strictly increasing indices. -/
theorem np_where_sorted (mask : List Bool) :
    (np_where mask).Pairwise (· < ·) := by
  induction mask with
  | nil => exact List.Pairwise.nil
  | cons b t ih =>
    have hrest : ((np_where t).map (· + 1)).Pairwise (· < ·) := by
      rw [List.pairwise_map]
      exact ih.imp (by omega)
    cases b with
    | false => simpa [np_where] using hrest
    | true =>
      rw [np_where]
      simp only [if_pos]
      refine List.Pairwise.cons ?_ hrest
      intro x hx
      rcases List.mem_map.mp hx with ⟨y, _, rfl⟩
      omega

/-- Length of `np.where`: the number of true entries of the mask. -/
theorem np_where_length (mask : List Bool) :
    (np_where mask).length = mask.countP (fun x => x) := by
  induction mask with
  | nil => rfl
  | cons b t ih =>
    cases b <;> simp [np_where, List.countP_cons, ih]

/-- `getD` of the inequality mask at a valid position. -/
theorem mask_getD (ant1 ant2 : List ℤ) (i : ℕ) (h1 : i < ant1.length)
    (h2 : i < ant2.length) :
    ((List.zip ant1 ant2).map (fun p => decide (p.1 ≠ p.2))).getD i false =
      decide (ant1.getD i 0 ≠ ant2.getD i 0) := by
  induction ant1 generalizing ant2 i with
  | nil => simp at h1
  | cons a t ih =>
    cases ant2 with
    | nil => simp at h2
    | cons b s =>
      cases i with
      | zero => rfl
      | succ j =>
        simp only [List.zip_cons_cons, List.map_cons, List.getD_cons_succ]
        exact ih s j (by simpa using h1) (by simpa using h2)

/-- `getD` of the equality mask at a valid position. -/
theorem eqmask_getD (ant1 ant2 : List ℤ) (i : ℕ) (h1 : i < ant1.length)
    (h2 : i < ant2.length) :
    ((List.zip ant1 ant2).map (fun p => decide (p.1 = p.2))).getD i false =
      decide (ant1.getD i 0 = ant2.getD i 0) := by
  induction ant1 generalizing ant2 i with
  | nil => simp at h1
  | cons a t ih =>
    cases ant2 with
    | nil => simp at h2
    | cons b s =>
      cases i with
      | zero => rfl
      | succ j =>
        simp only [List.zip_cons_cons, List.map_cons, List.getD_cons_succ]
        exact ih s j (by simpa using h1) (by simpa using h2)

/-- The autocorrelation test is negative exactly when no valid position
holds an equal antenna pair. -/
theorem contains_autocorrelations_false_iff (ant1 ant2 : List ℤ)
    (h : ant1.length = ant2.length) :
    contains_autocorrelations ant1 ant2 = false ↔
      ∀ i < ant1.length, ant1.getD i 0 ≠ ant2.getD i 0 := by
  rw [contains_autocorrelations, decide_eq_false_iff_not, Nat.not_lt,
    Nat.le_zero, List.count_eq_zero]
  constructor
  · intro hno i hi heq
    apply hno
    have hilen : i < ((List.zip ant1 ant2).map (fun p => decide (p.1 = p.2))).length := by
      simp only [List.length_map, List.length_zip]
      omega
    have hmem : ((List.zip ant1 ant2).map (fun p => decide (p.1 = p.2))).getD i false ∈
        (List.zip ant1 ant2).map (fun p => decide (p.1 = p.2)) := by
      rw [List.getD_eq_getElem _ false hilen]
      exact List.getElem_mem hilen
    rw [eqmask_getD ant1 ant2 i hi (h ▸ hi), decide_eq_true heq] at hmem
    exact hmem
  · intro hall hmem
    rcases List.mem_map.mp hmem with ⟨p, hp, hdec⟩
    rcases List.mem_iff_getElem.mp hp with ⟨i, hilen, rfl⟩
    have hi1 : i < ant1.length := by
      simp [List.length_zip] at hilen
      omega
    have hi2 : i < ant2.length := by
      simp [List.length_zip] at hilen
      omega
    have hfst : (List.zip ant1 ant2)[i].1 = ant1.getD i 0 := by
      rw [List.getElem_zip, List.getD_eq_getElem _ _ hi1]
    have hsnd : (List.zip ant1 ant2)[i].2 = ant2.getD i 0 := by
      rw [List.getElem_zip, List.getD_eq_getElem _ _ hi2]
    rw [hfst, hsnd] at hdec
    exact hall i hi1 (of_decide_eq_true hdec)

/-- C9: the cross-correlation index list is strictly increasing, and
`contains_autocorrelations` is false exactly when every visibility
position appears in the index list. -/
theorem crosscorrelation_indexes_spec (ant1 ant2 : List ℤ)
    (h : ant1.length = ant2.length) :
    (get_crosscorrelation_indexes ant1 ant2).Pairwise (· < ·) ∧
      (contains_autocorrelations ant1 ant2 = false ↔
        ∀ i < ant1.length, i ∈ get_crosscorrelation_indexes ant1 ant2) := by
  have hlen : ((List.zip ant1 ant2).map (fun p => decide (p.1 ≠ p.2))).length =
      ant1.length := by
    simp [List.length_zip, h]
  refine ⟨np_where_sorted _, ?_⟩
  rw [contains_autocorrelations_false_iff ant1 ant2 h]
  constructor
  · intro hall i hi
    rw [get_crosscorrelation_indexes, np_where_mem, hlen,
      mask_getD ant1 ant2 i hi (h ▸ hi)]
    exact ⟨hi, decide_eq_true (hall i hi)⟩
  · intro hall i hi
    have := (np_where_mem _ i).mp (hall i hi)
    rw [hlen, mask_getD ant1 ant2 i hi (h ▸ hi)] at this
    exact of_decide_eq_true this.2

/-- Witness for C9 at `ant1 = [1, 2]`, `ant2 = [3, 4]` (no
autocorrelation). -/
theorem crosscorrelation_indexes_spec_witness :
    (get_crosscorrelation_indexes [1, 2] [3, 4]).Pairwise (· < ·) ∧
      (contains_autocorrelations [1, 2] [3, 4] = false ↔
        ∀ i < ([1, 2] : List ℤ).length,
          i ∈ get_crosscorrelation_indexes [1, 2] [3, 4]) :=
  crosscorrelation_indexes_spec [1, 2] [3, 4] rfl

/-! ### C8: combined broadcast-and-convert agrees with simple convert -/

/-- Zipping a constant-map of a list with the list itself pairs the
constant with every element. -/
theorem zip_const_map {α β : Type} (u : α) (cf : List β) :
    List.zip (cf.map (fun _ => u)) cf = cf.map (fun f => (u, f)) := by
  induction cf with
  | nil => rfl
  | cons a t ih => simpa using ih

/-- C8: row `i` of each output of `broadcast_and_convert_baselines`
equals `convert_baselines` of the corresponding baseline array at the
single frequency `chan_freq[i]`. -/
theorem broadcast_and_convert_baselines_rowwise (u v chan_freq : Vec)
    (i : ℕ) (hi : i < chan_freq.length) :
    (broadcast_and_convert_baselines u v chan_freq).1.getD i [] =
      convert_baselines u (chan_freq.getD i 0) ∧
    (broadcast_and_convert_baselines u v chan_freq).2.getD i [] =
      convert_baselines v (chan_freq.getD i 0) := by
  unfold broadcast_and_convert_baselines convert_baselines
  rw [zip_const_map u chan_freq, zip_const_map v chan_freq,
    List.map_map, List.map_map]
  exact ⟨getD_map_lt _ chan_freq i hi [] 0, getD_map_lt _ chan_freq i hi [] 0⟩

/-- Witness for C8 at one baseline, two channels. -/
theorem broadcast_and_convert_baselines_rowwise_witness :
    (broadcast_and_convert_baselines [1000] [2000] [1000000000, 2000000000]).1.getD 0 [] =
      convert_baselines [1000] (([1000000000, 2000000000] : Vec).getD 0 0) ∧
    (broadcast_and_convert_baselines [1000] [2000] [1000000000, 2000000000]).2.getD 0 [] =
      convert_baselines [2000] (([1000000000, 2000000000] : Vec).getD 0 0) :=
  broadcast_and_convert_baselines_rowwise [1000] [2000]
    [1000000000, 2000000000] 0 (by norm_num)

/-! ### C2: polarization-weighted average of the data -/

/-- Pointwise value of a dual-polarization weighted row average. -/
theorem rowAvg_getD (d0 d1 : List CQ) (w0 w1 : Vec) (v : ℕ)
    (h0 : v < d0.length) (h1 : v < d1.length) (g0 : v < w0.length)
    (g1 : v < w1.length) :
    (rowDiv (cVecAdd (rowMul d0 w0) (rowMul d1 w1)) (vecAdd w0 w1)).getD v CQ.zero =
      CQ.divQ (CQ.add (CQ.mulQ (d0.getD v CQ.zero) (w0.getD v 0))
          (CQ.mulQ (d1.getD v CQ.zero) (w1.getD v 0)))
        (w0.getD v 0 + w1.getD v 0) := by
  rw [rowDiv, getD_zipWith_lt CQ.divQ _ _ v
      (by simp [cVecAdd, rowMul, List.length_zipWith]; omega)
      (by simp [vecAdd, List.length_zipWith]; omega) CQ.zero CQ.zero 0]
  rw [cVecAdd, getD_zipWith_lt CQ.add _ _ v
      (by simp [rowMul, List.length_zipWith]; omega)
      (by simp [rowMul, List.length_zipWith]; omega) CQ.zero CQ.zero CQ.zero]
  rw [rowMul, getD_zipWith_lt CQ.mulQ d0 w0 v h0 g0 CQ.zero CQ.zero 0]
  rw [rowMul, getD_zipWith_lt CQ.mulQ d1 w1 v h1 g1 CQ.zero CQ.zero 0]
  rw [vecAdd, getD_zipWith_lt (· + ·) w0 w1 v g0 g1 0 0 0]

/-- C2: with a dual-polarization data array and a weight array of equal
rank, or of rank 2 against channelized rank-3 data, the result of
`average_data_polarization` is `sum(data * weight) / sum(weight)` over
the polarization axis at every valid position. -/
theorem average_data_polarization_weighted_mean
    (d0 d1 : List CQ) (m0 m1 : CMat) (w0 w1 : Vec) (W0 W1 : Mat) (c v : ℕ)
    (hd0 : v < d0.length) (hd1 : v < d1.length)
    (hw0 : v < w0.length) (hw1 : v < w1.length)
    (hm0 : c < m0.length) (hm1 : c < m1.length)
    (hmv0 : v < (m0.getD c []).length) (hmv1 : v < (m1.getD c []).length)
    (hW0 : c < W0.length) (hW1 : c < W1.length)
    (hWv0 : v < (W0.getD c []).length) (hWv1 : v < (W1.getD c []).length) :
    (∃ r, average_data_polarization (.a2 [d0, d1]) (.a2 [w0, w1]) = .ok (.a1 r) ∧
      r.getD v CQ.zero =
        CQ.divQ (CQ.add (CQ.mulQ (d0.getD v CQ.zero) (w0.getD v 0))
            (CQ.mulQ (d1.getD v CQ.zero) (w1.getD v 0)))
          (w0.getD v 0 + w1.getD v 0)) ∧
    (∃ r, average_data_polarization (.a3 [m0, m1]) (.a3 [W0, W1]) = .ok (.a2 r) ∧
      (r.getD c []).getD v CQ.zero =
        CQ.divQ (CQ.add
            (CQ.mulQ ((m0.getD c []).getD v CQ.zero) ((W0.getD c []).getD v 0))
            (CQ.mulQ ((m1.getD c []).getD v CQ.zero) ((W1.getD c []).getD v 0)))
          ((W0.getD c []).getD v 0 + (W1.getD c []).getD v 0)) ∧
    (∃ r, average_data_polarization (.a3 [m0, m1]) (.a2 [w0, w1]) = .ok (.a2 r) ∧
      (r.getD c []).getD v CQ.zero =
        CQ.divQ (CQ.add
            (CQ.mulQ ((m0.getD c []).getD v CQ.zero) (w0.getD v 0))
            (CQ.mulQ ((m1.getD c []).getD v CQ.zero) (w1.getD v 0)))
          (w0.getD v 0 + w1.getD v 0)) := by
  refine ⟨⟨_, rfl, ?_⟩, ⟨_, rfl, ?_⟩, ⟨_, rfl, ?_⟩⟩
  · show (rowDiv (cSumAxis0 (matMul [d0, d1] [w0, w1]))
        (average_weight_polarization [w0, w1])).getD v CQ.zero = _
    exact rowAvg_getD d0 d1 w0 w1 v hd0 hd1 hw0 hw1
  · show ((List.zipWith rowDiv
        (cSumAxis0₃ (List.zipWith matMul [m0, m1] [W0, W1]))
        (average_weight_polarization₃ [W0, W1])).getD c []).getD v CQ.zero = _
    have hred : List.zipWith rowDiv
        (cSumAxis0₃ (List.zipWith matMul [m0, m1] [W0, W1]))
        (average_weight_polarization₃ [W0, W1]) =
        List.zipWith rowDiv (cMatAdd (matMul m0 W0) (matMul m1 W1))
          (matAdd W0 W1) := rfl
    rw [hred, getD_zipWith_lt rowDiv _ _ c
        (by simp [cMatAdd, matMul, List.length_zipWith]; omega)
        (by simp [matAdd, List.length_zipWith]; omega) [] [] []]
    rw [cMatAdd, getD_zipWith_lt cVecAdd _ _ c
        (by simp [matMul, List.length_zipWith]; omega)
        (by simp [matMul, List.length_zipWith]; omega) [] [] []]
    rw [matMul, getD_zipWith_lt rowMul m0 W0 c hm0 hW0 [] [] []]
    rw [matMul, getD_zipWith_lt rowMul m1 W1 c hm1 hW1 [] [] []]
    rw [matAdd, getD_zipWith_lt vecAdd W0 W1 c hW0 hW1 [] [] []]
    exact rowAvg_getD _ _ _ _ v hmv0 hmv1 hWv0 hWv1
  · show (((cSumAxis0₃ (List.zipWith (fun dm wr => dm.map (fun r => rowMul r wr))
        [m0, m1] [w0, w1])).map
        (fun row => rowDiv row (average_weight_polarization [w0, w1]))).getD c
        []).getD v CQ.zero = _
    have hred : cSumAxis0₃ (List.zipWith (fun dm wr => dm.map (fun r => rowMul r wr))
        [m0, m1] [w0, w1]) =
        cMatAdd (m0.map (fun r => rowMul r w0)) (m1.map (fun r => rowMul r w1)) := rfl
    rw [hred, getD_map_lt _ _ c
        (by simp [cMatAdd, List.length_zipWith]; omega) [] []]
    rw [cMatAdd, getD_zipWith_lt cVecAdd _ _ c (by simpa using hm0)
        (by simpa using hm1) [] [] []]
    rw [getD_map_lt _ m0 c hm0 [] [], getD_map_lt _ m1 c hm1 [] []]
    show (rowDiv (cVecAdd (rowMul (m0.getD c []) w0) (rowMul (m1.getD c []) w1))
        (vecAdd w0 w1)).getD v CQ.zero = _
    exact rowAvg_getD _ _ _ _ v hmv0 hmv1 hw0 hw1

/-- Witness for C2: data `[[1+0j], [3+0j]]` of shape `(2, 1)` with
weight `[[1.0], [1.0]]` averages to `2+0j`. -/
theorem average_data_polarization_weighted_mean_witness :
    ∃ r, average_data_polarization (.a2 [[⟨1, 0⟩], [⟨3, 0⟩]])
        (.a2 [[1], [1]]) = .ok (.a1 r) ∧ r.getD 0 CQ.zero = ⟨2, 0⟩ := by
  obtain ⟨⟨r, hr, hv⟩, -, -⟩ :=
    average_data_polarization_weighted_mean [⟨1, 0⟩] [⟨3, 0⟩]
      [[⟨1, 0⟩]] [[⟨3, 0⟩]] [1] [1] [[1]] [[1]] 0 0
      (by norm_num) (by norm_num) (by norm_num) (by norm_num)
      (by norm_num) (by norm_num) (by norm_num) (by norm_num)
      (by norm_num) (by norm_num) (by norm_num) (by norm_num)
  refine ⟨r, hr, ?_⟩
  rw [hv]
  norm_num [List.getD, CQ.mulQ, CQ.add, CQ.divQ, CQ.zero, CQ.mk.injEq]

/-! ### C6: unrecognized data/weight shape combinations -/

/-- C6 (amended): when the data polarization axis has length 2, every
unrecognized rank combination (weight rank 1 or 3 against rank-2 data,
weight rank 1 against rank-3 data) raises the error that names both
shapes and never returns a value. -/
theorem average_data_polarization_shape_error (d : CMat) (t : CArr3)
    (w₁ : Vec) (w₃ : Arr3) (hd : d.length = 2) (ht : t.length = 2) :
    average_data_polarization (.a2 d) (.a1 w₁) =
      .error (shapeMismatchMsg (CArr.shape (.a2 d)) (QArr.shape (.a1 w₁))) ∧
    average_data_polarization (.a2 d) (.a3 w₃) =
      .error (shapeMismatchMsg (CArr.shape (.a2 d)) (QArr.shape (.a3 w₃))) ∧
    average_data_polarization (.a3 t) (.a1 w₁) =
      .error (shapeMismatchMsg (CArr.shape (.a3 t)) (QArr.shape (.a1 w₁))) := by
  have h2 : (CArr.shape (.a2 d)).getD 0 0 = 2 := by simp [CArr.shape, hd]
  have h3 : (CArr.shape (.a3 t)).getD 0 0 = 2 := by simp [CArr.shape, ht]
  refine ⟨?_, ?_, ?_⟩
  · show (if (CArr.shape (.a2 d)).getD 0 0 = 2
        then (Except.error (shapeMismatchMsg (CArr.shape (.a2 d))
          (QArr.shape (.a1 w₁))) : Except String CRes)
        else .error dualPolMsg) = _
    rw [if_pos h2]
  · show (if (CArr.shape (.a2 d)).getD 0 0 = 2
        then (Except.error (shapeMismatchMsg (CArr.shape (.a2 d))
          (QArr.shape (.a3 w₃))) : Except String CRes)
        else .error dualPolMsg) = _
    rw [if_pos h2]
  · show (if (CArr.shape (.a3 t)).getD 0 0 = 2
        then (Except.error (shapeMismatchMsg (CArr.shape (.a3 t))
          (QArr.shape (.a1 w₁))) : Except String CRes)
        else .error dualPolMsg) = _
    rw [if_pos h3]

/-- Witness for C6's amended claim on concrete dual-polarization data. -/
theorem average_data_polarization_shape_error_witness :
    average_data_polarization (.a2 [[⟨1, 0⟩], [⟨3, 0⟩]]) (.a1 [1]) =
      .error (shapeMismatchMsg [2, 1] [1]) := by
  have h := (average_data_polarization_shape_error [[⟨1, 0⟩], [⟨3, 0⟩]]
    [[[⟨1, 0⟩]], [[⟨3, 0⟩]]] [1] [[[1]]] rfl rfl).1
  simpa [CArr.shape, QArr.shape] using h

/-- Counterexample for C6 as stated: for data of shape `(1, 1)` (a
single polarization) against a rank-1 weight, the shape combination is
not a recognized one, yet the failed dual-polarization assertion fires
first, so the error message does not name the offending shapes. -/
theorem average_data_polarization_shape_error_counterexample :
    average_data_polarization (.a2 [[⟨1, 0⟩]]) (.a1 [1]) = .error dualPolMsg ∧
      dualPolMsg ≠ shapeMismatchMsg (CArr.shape (.a2 [[(⟨1, 0⟩ : CQ)]]))
        (QArr.shape (.a1 [1])) := by
  refine ⟨rfl, ?_⟩
  decide

/-! ### C3: channel canonicalization -/

/-- `getD` at a valid position is a member. -/
theorem getD_mem_of_lt {α : Type} (l : List α) (p : ℕ) (h : p < l.length)
    (d : α) : l.getD p d ∈ l := by
  rw [List.getD_eq_getElem _ _ h]
  exact List.getElem_mem h

/-- A chain relates the first two entries of a list of length at least
two. -/
theorem chain'_getD01 {R : ℚ → ℚ → Prop} (l : Vec) (h2 : 2 ≤ l.length)
    (hc : l.Chain' R) : R (l.getD 0 0) (l.getD 1 0) := by
  match l, h2 with
  | a :: b :: t, _ => exact (List.chain'_cons.mp hc).1

/-- `getD` beyond the length yields the default. -/
theorem getD_of_le {α : Type} (l : List α) (p : ℕ) (h : l.length ≤ p)
    (d : α) : l.getD p d = d := by
  rw [List.getD_eq_getElem?_getD, List.getElem?_eq_none (by omega)]
  rfl

/-- Channel alignment of a flipped (or untouched) channelized array: the
entry of row `p` at channel `i` of the output equals the entry of the
input at channel `j`. -/
theorem reverseChan_aligned {α : Type} (a : List (List α)) (n i j : ℕ)
    (ha : ∀ m ∈ a, m.length = n) (hi : i < n) (hj : j = n - 1 - i) (p : ℕ)
    (dflt : α) :
    ((a.map List.reverse).getD p []).getD i dflt =
      (a.getD p []).getD j dflt := by
  by_cases hp : p < a.length
  · rw [getD_map_lt List.reverse a p hp [] []]
    have hrow : (a.getD p []).length = n := ha _ (getD_mem_of_lt a p hp [])
    rw [getD_reverse_lt _ i (by omega) dflt, hrow, hj]
  · have h1 : (a.map List.reverse).getD p [] = [] :=
      List.getD_eq_default _ _ (by simpa using not_lt.mp hp)
    have h2 : a.getD p [] = [] := List.getD_eq_default _ _ (not_lt.mp hp)
    rw [h1, h2]
    simp [List.getD]

/-- C3: on strictly monotonic frequencies with more than one channel,
the canonicalization step reverses frequencies, data, model data and
flags together exactly when the input is increasing; the returned
frequencies are always strictly decreasing, and every returned channel
slice equals the input slice of the same physical frequency. -/
theorem get_channel_sorted_data_canonicalizes
    (chan_freq : Vec) (data model_data : CArr3) (flag : BArr3)
    (hlen : 2 ≤ chan_freq.length)
    (hmono : chan_freq.Chain' (fun a b => a < b) ∨
      chan_freq.Chain' (fun a b => b < a))
    (hd : ∀ m ∈ data, m.length = chan_freq.length)
    (hm : ∀ m ∈ model_data, m.length = chan_freq.length)
    (hf : ∀ m ∈ flag, m.length = chan_freq.length) :
    (chan_freq.Chain' (fun a b => a < b) →
      get_channel_sorted_data chan_freq data model_data flag =
        (chan_freq.reverse, reverseChan data, reverseChan model_data,
          reverseChanB flag)) ∧
    (get_channel_sorted_data chan_freq data model_data flag).1.Chain'
      (fun a b => b < a) ∧
    (∀ i < chan_freq.length, ∃ j < chan_freq.length,
      (get_channel_sorted_data chan_freq data model_data flag).1.getD i 0 =
        chan_freq.getD j 0 ∧
      (∀ p, (((get_channel_sorted_data chan_freq data model_data flag).2.1).getD p []).getD i [] =
        (data.getD p []).getD j []) ∧
      (∀ p, (((get_channel_sorted_data chan_freq data model_data flag).2.2.1).getD p []).getD i [] =
        (model_data.getD p []).getD j []) ∧
      (∀ p, (((get_channel_sorted_data chan_freq data model_data flag).2.2.2).getD p []).getD i [] =
        (flag.getD p []).getD j [])) := by
  rcases hmono with hinc | hdec
  · have hcond : 1 < chan_freq.length ∧
        chan_freq.getD 0 0 < chan_freq.getD 1 0 :=
      ⟨by omega, chain'_getD01 chan_freq hlen hinc⟩
    have heq : get_channel_sorted_data chan_freq data model_data flag =
        (chan_freq.reverse, reverseChan data, reverseChan model_data,
          reverseChanB flag) := by
      rw [get_channel_sorted_data, if_pos hcond]
    refine ⟨fun _ => heq, ?_, ?_⟩
    · rw [heq]
      exact List.chain'_reverse.mpr hinc
    · intro i hi
      refine ⟨chan_freq.length - 1 - i, by omega, ?_, ?_, ?_, ?_⟩
      · rw [heq]
        exact getD_reverse_lt chan_freq i hi 0
      · intro p
        rw [heq]
        exact reverseChan_aligned data chan_freq.length i _ hd hi rfl p []
      · intro p
        rw [heq]
        exact reverseChan_aligned model_data chan_freq.length i _ hm hi rfl p []
      · intro p
        rw [heq]
        exact reverseChan_aligned flag chan_freq.length i _ hf hi rfl p []
  · have hcond : ¬ (1 < chan_freq.length ∧
        chan_freq.getD 0 0 < chan_freq.getD 1 0) := by
      rintro ⟨-, hlt⟩
      exact absurd hlt (not_lt.mpr (chain'_getD01 chan_freq hlen hdec).le)
    have heq : get_channel_sorted_data chan_freq data model_data flag =
        (chan_freq, data, model_data, flag) := by
      rw [get_channel_sorted_data, if_neg hcond]
    refine ⟨fun hinc => (not_chain_both chan_freq hlen hdec hinc).elim, ?_, ?_⟩
    · rw [heq]
      exact hdec
    · intro i hi
      refine ⟨i, hi, ?_, ?_, ?_, ?_⟩ <;> simp [heq]

/-- Witness for C3 at two increasing channels of one visibility each. -/
theorem get_channel_sorted_data_canonicalizes_witness :
    get_channel_sorted_data [(1 : ℚ), 2] [[[⟨5, 0⟩], [⟨6, 0⟩]]]
        [[[⟨7, 0⟩], [⟨8, 0⟩]]] [[[true], [false]]] =
      ([2, 1], [[[⟨6, 0⟩], [⟨5, 0⟩]]], [[[⟨8, 0⟩], [⟨7, 0⟩]]],
        [[[false], [true]]]) := by
  have h := (get_channel_sorted_data_canonicalizes [(1 : ℚ), 2]
    [[[⟨5, 0⟩], [⟨6, 0⟩]]] [[[⟨7, 0⟩], [⟨8, 0⟩]]] [[[true], [false]]]
    (by norm_num) (Or.inl (by norm_num [List.chain'_cons]))
    (by simp) (by simp) (by simp)).1 (by norm_num [List.chain'_cons])
  rw [h]
  rfl

/-! ### C1: support lemmas for the end-to-end pipeline -/

/-- Length of a column selection. -/
theorem selectCols_length {α : Type} (xc : List ℕ) (m : List (List α)) :
    (selectCols xc m).length = m.length := by
  simp [selectCols]

/-- Row of a column selection at a valid row index. -/
theorem selectCols_getD {α : Type} (xc : List ℕ) (m : List (List α)) (c : ℕ)
    (hc : c < m.length) :
    (selectCols xc m).getD c [] = xc.filterMap ((m.getD c []).get?) := by
  rw [selectCols, getD_map_lt _ m c hc [] []]

/-- Length of a get-based filterMap over valid indices. -/
theorem filterMap_get_length {α : Type} (xc : List ℕ) (row : List α)
    (hxc : ∀ i ∈ xc, i < row.length) :
    (xc.filterMap row.get?).length = xc.length := by
  induction xc with
  | nil => rfl
  | cons i rest ih =>
    have hi : i < row.length := hxc i (by simp)
    have hrest : ∀ j ∈ rest, j < row.length := fun j hj => hxc j (by simp [hj])
    have hcons : List.filterMap row.get? (i :: rest) =
        row[i] :: List.filterMap row.get? rest :=
      List.filterMap_cons_some
        (by rw [List.get?_eq_getElem?, List.getElem?_eq_getElem hi])
    rw [hcons]
    simp [ih hrest]

/-- Entry of a get-based filterMap over valid indices. -/
theorem filterMap_get_getD {α : Type} (xc : List ℕ) (row : List α) (t : ℕ)
    (hxc : ∀ i ∈ xc, i < row.length) (ht : t < xc.length) (dflt : α) :
    (xc.filterMap row.get?).getD t dflt = row.getD (xc.getD t 0) dflt := by
  induction xc generalizing t with
  | nil => simp at ht
  | cons i rest ih =>
    have hi : i < row.length := hxc i (by simp)
    have hrest : ∀ j ∈ rest, j < row.length := fun j hj => hxc j (by simp [hj])
    have hcons : List.filterMap row.get? (i :: rest) =
        row[i] :: List.filterMap row.get? rest :=
      List.filterMap_cons_some
        (by rw [List.get?_eq_getElem?, List.getElem?_eq_getElem hi])
    rw [hcons]
    cases t with
    | zero =>
      rw [List.getD_cons_zero, List.getD_cons_zero,
        List.getD_eq_getElem row dflt hi]
    | succ t2 =>
      rw [List.getD_cons_succ, List.getD_cons_succ]
      exact ih t2 hrest (by simpa using ht)

/-- Every cross-correlation index is a valid position of either antenna
list. -/
theorem xc_mem_lt (ant1 ant2 : List ℤ) (h : ant2.length = ant1.length)
    (i : ℕ) (hi : i ∈ get_crosscorrelation_indexes ant1 ant2) :
    i < ant1.length := by
  have := (np_where_mem _ i).mp hi
  simpa [List.length_zip, h] using this.1

/-- With at least one autocorrelation pair, the cross-correlation index
list is strictly shorter than the visibility axis. -/
theorem xc_length_lt (ant1 ant2 : List ℤ) (h : ant2.length = ant1.length)
    (hauto : contains_autocorrelations ant1 ant2 = true) :
    (get_crosscorrelation_indexes ant1 ant2).length < ant1.length := by
  rw [get_crosscorrelation_indexes, np_where_length]
  have hlen : ((List.zip ant1 ant2).map (fun p => decide (p.1 ≠ p.2))).length =
      ant1.length := by
    simp [List.length_zip, h]
  rw [contains_autocorrelations, decide_eq_true_eq] at hauto
  have htrue : true ∈ (List.zip ant1 ant2).map (fun p => decide (p.1 = p.2)) := by
    rw [← List.count_pos_iff]
    exact hauto
  rcases List.mem_map.mp htrue with ⟨p, hp, hdec⟩
  have hfalse : decide (p.1 ≠ p.2) = false := by
    simp [of_decide_eq_true hdec]
  have hne : ¬ ∀ b ∈ (List.zip ant1 ant2).map (fun q => decide (q.1 ≠ q.2)),
      b = true := by
    intro hall
    have := hall (decide (p.1 ≠ p.2)) (List.mem_map_of_mem _ hp)
    rw [hfalse] at this
    exact Bool.noConfusion this
  have hle := List.countP_le_length (l := (List.zip ant1 ant2).map
    (fun q => decide (q.1 ≠ q.2))) (p := fun b => b)
  rw [hlen] at hle
  rcases lt_or_eq_of_le hle with hlt | heq
  · exact hlt
  · exfalso
    apply hne
    intro b hb
    have hcount : ((List.zip ant1 ant2).map (fun q => decide (q.1 ≠ q.2))).countP
        (fun b => b) = ((List.zip ant1 ant2).map (fun q => decide (q.1 ≠ q.2))).length := by
      rw [hlen, heq]
    have := List.countP_eq_length.mp hcount b hb
    simpa using this

/-- Cancellation of a common nonzero rescale factor in a quotient. -/
theorem div_div_cancel_factor (p q s : ℚ) (hs : s ≠ 0) :
    (p / s) / (q / s) = p / q := by
  rcases eq_or_ne q 0 with rfl | hq
  · simp
  · field_simp

/-- Rescaling both weights by the same nonzero factor does not change
the weighted polarization average. -/
theorem avg_rescale_cancel (x y : CQ) (a b s : ℚ) (hs : s ≠ 0) :
    CQ.divQ (CQ.add (CQ.mulQ x (a / s)) (CQ.mulQ y (b / s))) (a / s + b / s) =
      CQ.divQ (CQ.add (CQ.mulQ x a) (CQ.mulQ y b)) (a + b) := by
  rw [CQ.divQ, CQ.divQ, CQ.mk.injEq]
  have hsum : a / s + b / s = (a + b) / s := div_add_div_same a b s
  constructor
  · show (CQ.add (CQ.mulQ x (a / s)) (CQ.mulQ y (b / s))).re / (a / s + b / s) = _
    rw [hsum, CQ.add, CQ.mulQ, CQ.mulQ]
    show (x.re * (a / s) + y.re * (b / s)) / ((a + b) / s) = _
    rw [← mul_div_assoc, ← mul_div_assoc, div_add_div_same,
      div_div_cancel_factor _ _ s hs]
    rfl
  · show (CQ.add (CQ.mulQ x (a / s)) (CQ.mulQ y (b / s))).im / (a / s + b / s) = _
    rw [hsum, CQ.add, CQ.mulQ, CQ.mulQ]
    show (x.im * (a / s) + y.im * (b / s)) / ((a + b) / s) = _
    rw [← mul_div_assoc, ← mul_div_assoc, div_add_div_same,
      div_div_cancel_factor _ _ s hs]
    rfl

/-- The two outputs of `broadcast_and_convert_baselines` as plain maps
over the channel frequencies. -/
theorem bcb_eq (u v cf : Vec) :
    (broadcast_and_convert_baselines u v cf).1 =
      cf.map (fun f => u.map (fun x => 1 / 1000 * x / (cval / f))) ∧
    (broadcast_and_convert_baselines u v cf).2 =
      cf.map (fun f => v.map (fun x => 1 / 1000 * x / (cval / f))) := by
  rw [broadcast_and_convert_baselines]
  rw [zip_const_map u cf, zip_const_map v cf, List.map_map, List.map_map]
  exact ⟨rfl, rfl⟩

/-- Row of the summed pair of replicated weight rows. -/
theorem matAdd_replicate_getD (a b : Vec) (n c : ℕ) (hc : c < n) :
    (matAdd (List.replicate n a) (List.replicate n b)).getD c [] =
      vecAdd a b := by
  rw [matAdd, getD_zipWith_lt vecAdd _ _ c (by simpa using hc)
    (by simpa using hc) [] [] []]
  rw [getD_replicate_lt n a c hc [], getD_replicate_lt n b c hc []]

/-- The channelized polarization-averaged array produced by the pipeline
from two reversed data planes and two replicated rescaled weight rows. -/
def pipelineZ (A0 A1 : CMat) (w0 w1 : Vec) (σ : ℚ) (n : ℕ) : CMat :=
  List.zipWith rowDiv
    (cMatAdd (matMul A0.reverse (List.replicate n (w0.map (fun x => x / σ ^ 2))))
      (matMul A1.reverse (List.replicate n (w1.map (fun x => x / σ ^ 2)))))
    (matAdd (List.replicate n (w0.map (fun x => x / σ ^ 2)))
      (List.replicate n (w1.map (fun x => x / σ ^ 2))))

/-- Outer length of `pipelineZ`. -/
theorem pipelineZ_length (A0 A1 : CMat) (w0 w1 : Vec) (σ : ℚ) (n : ℕ)
    (hA0 : A0.length = n) (hA1 : A1.length = n) :
    (pipelineZ A0 A1 w0 w1 σ n).length = n := by
  simp [pipelineZ, cMatAdd, matMul, matAdd, List.length_zipWith, hA0, hA1]

/-- Row of `pipelineZ` at a valid channel. -/
theorem pipelineZ_row (A0 A1 : CMat) (w0 w1 : Vec) (σ : ℚ) (n c : ℕ)
    (hA0 : A0.length = n) (hA1 : A1.length = n) (hc : c < n) :
    (pipelineZ A0 A1 w0 w1 σ n).getD c [] =
      rowDiv (cVecAdd
        (rowMul (A0.reverse.getD c []) (w0.map (fun x => x / σ ^ 2)))
        (rowMul (A1.reverse.getD c []) (w1.map (fun x => x / σ ^ 2))))
      (vecAdd (w0.map (fun x => x / σ ^ 2)) (w1.map (fun x => x / σ ^ 2))) := by
  rw [pipelineZ, getD_zipWith_lt rowDiv _ _ c
    (by simp [cMatAdd, matMul, List.length_zipWith, hA0, hA1]; omega)
    (by simp [matAdd, List.length_zipWith]; omega) [] [] []]
  rw [cMatAdd, getD_zipWith_lt cVecAdd _ _ c
    (by simp [matMul, List.length_zipWith, hA0]; omega)
    (by simp [matMul, List.length_zipWith, hA1]; omega) [] [] []]
  rw [matMul, getD_zipWith_lt rowMul _ _ c (by simpa using hA0 ▸ hc)
    (by simpa using hc) [] [] []]
  rw [matMul, getD_zipWith_lt rowMul _ _ c (by simpa using hA1 ▸ hc)
    (by simpa using hc) [] [] []]
  rw [matAdd_replicate_getD _ _ n c hc]
  rw [getD_replicate_lt n _ c hc [], getD_replicate_lt n _ c hc []]

/-- Row length of `pipelineZ` at a valid channel. -/
theorem pipelineZ_row_length (A0 A1 : CMat) (w0 w1 : Vec) (σ : ℚ)
    (n nvis c : ℕ) (hA0 : A0.length = n) (hA1 : A1.length = n)
    (hA0r : ∀ r ∈ A0, r.length = nvis) (hA1r : ∀ r ∈ A1, r.length = nvis)
    (hw0 : w0.length = nvis) (hw1 : w1.length = nvis) (hc : c < n) :
    ((pipelineZ A0 A1 w0 w1 σ n).getD c []).length = nvis := by
  rw [pipelineZ_row A0 A1 w0 w1 σ n c hA0 hA1 hc]
  have h0 : (A0.reverse.getD c []).length = nvis := by
    rw [getD_reverse_lt A0 c (by omega) []]
    exact hA0r _ (getD_mem_of_lt _ _ (by omega) [])
  have h1 : (A1.reverse.getD c []).length = nvis := by
    rw [getD_reverse_lt A1 c (by omega) []]
    exact hA1r _ (getD_mem_of_lt _ _ (by omega) [])
  simp only [rowDiv, cVecAdd, rowMul, vecAdd, List.length_zipWith,
    List.length_map]
  omega

/-- Pointwise value of `pipelineZ`: the polarization-weighted average of
the two planes at the mirrored channel, the rescale factor cancelling
between numerator and denominator. -/
theorem pipelineZ_getD (A0 A1 : CMat) (w0 w1 : Vec) (σ : ℚ)
    (n nvis c j : ℕ) (hA0 : A0.length = n) (hA1 : A1.length = n)
    (hA0r : ∀ r ∈ A0, r.length = nvis) (hA1r : ∀ r ∈ A1, r.length = nvis)
    (hw0 : w0.length = nvis) (hw1 : w1.length = nvis) (hσ : σ ≠ 0)
    (hc : c < n) (hj : j < nvis) :
    ((pipelineZ A0 A1 w0 w1 σ n).getD c []).getD j CQ.zero =
      CQ.divQ (CQ.add
        (CQ.mulQ ((A0.getD (n - 1 - c) []).getD j CQ.zero) (w0.getD j 0))
        (CQ.mulQ ((A1.getD (n - 1 - c) []).getD j CQ.zero) (w1.getD j 0)))
      (w0.getD j 0 + w1.getD j 0) := by
  rw [pipelineZ_row A0 A1 w0 w1 σ n c hA0 hA1 hc]
  have h0 : (A0.reverse.getD c []).length = nvis := by
    rw [getD_reverse_lt A0 c (by omega) []]
    exact hA0r _ (getD_mem_of_lt _ _ (by omega) [])
  have h1 : (A1.reverse.getD c []).length = nvis := by
    rw [getD_reverse_lt A1 c (by omega) []]
    exact hA1r _ (getD_mem_of_lt _ _ (by omega) [])
  rw [rowAvg_getD _ _ _ _ j (by omega) (by omega)
    (by simpa using hw0 ▸ hj) (by simpa using hw1 ▸ hj)]
  rw [getD_map_lt (fun x => x / σ ^ 2) w0 j (by omega) 0 0]
  rw [getD_map_lt (fun x => x / σ ^ 2) w1 j (by omega) 0 0]
  rw [getD_reverse_lt A0 c (by omega) [], getD_reverse_lt A1 c (by omega) [],
    hA0, hA1]
  exact avg_rescale_cancel _ _ _ _ (σ ^ 2) (pow_ne_zero 2 hσ)

/-- Reduction of the intended pipeline on an increasing-frequency
dual-polarization query to its explicit stage values. -/
theorem pipeline_reduction (chan_freq u v wuvw w0 w1 : Vec)
    (d0 d1 e0 e1 : CMat) (f0 f1 : BMat) (ant1 ant2 : List ℤ) (σ : ℚ)
    (hlen : 2 ≤ chan_freq.length)
    (hinc : chan_freq.Chain' (fun a b => a < b)) (hσ : σ ≠ 0) :
    get_processed_visibilities_intended
        ⟨chan_freq, u, v, wuvw, [d0, d1], [e0, e1], [f0, f1], [w0, w1],
          ant1, ant2⟩ σ =
      .ok ⟨chan_freq.reverse,
        selectCols (get_crosscorrelation_indexes ant1 ant2)
          (broadcast_and_convert_baselines u v chan_freq.reverse).1,
        selectCols (get_crosscorrelation_indexes ant1 ant2)
          (broadcast_and_convert_baselines u v chan_freq.reverse).2,
        conjMat (selectCols (get_crosscorrelation_indexes ant1 ant2)
          (pipelineZ d0 d1 w0 w1 σ chan_freq.reverse.length)),
        conjMat (selectCols (get_crosscorrelation_indexes ant1 ant2)
          (pipelineZ e0 e1 w0 w1 σ chan_freq.reverse.length)),
        selectCols (get_crosscorrelation_indexes ant1 ant2)
          (matOr f0.reverse f1.reverse),
        selectCols (get_crosscorrelation_indexes ant1 ant2)
          (matAdd
            (List.replicate chan_freq.reverse.length (w0.map (fun x => x / σ ^ 2)))
            (List.replicate chan_freq.reverse.length (w1.map (fun x => x / σ ^ 2))))⟩ := by
  have hcond : 1 < chan_freq.length ∧
      chan_freq.getD 0 0 < chan_freq.getD 1 0 :=
    ⟨by omega, chain'_getD01 chan_freq hlen hinc⟩
  have hsorted : get_channel_sorted_data chan_freq [d0, d1] [e0, e1] [f0, f1] =
      (chan_freq.reverse, [d0.reverse, d1.reverse], [e0.reverse, e1.reverse],
        [f0.reverse, f1.reverse]) := by
    rw [get_channel_sorted_data, if_pos hcond]
    rfl
  have hres : rescale_weights₃
      (pipeline_broadcast_weights [w0, w1] chan_freq.reverse.length) σ =
      .ok [List.replicate chan_freq.reverse.length (w0.map (fun x => x / σ ^ 2)),
        List.replicate chan_freq.reverse.length (w1.map (fun x => x / σ ^ 2))] := by
    rw [rescale_weights₃, if_neg (pow_ne_zero 2 hσ)]
    simp [pipeline_broadcast_weights, List.map_replicate]
  simp only [get_processed_visibilities_intended, hsorted, hres]
  rfl

set_option maxHeartbeats 2000000 in
/-- The spec-intended end-to-end behavior (pipeline with the line-278
slip repaired): on a spectral-window query with strictly increasing
channel frequencies, dual polarization and at least one autocorrelation
baseline, the intended pipeline returns the processed record (a
structure with exactly the keys `frequencies`, `uu`, `vv`, `data`,
`model_data`, `flag`, `weight`): the frequencies come out strictly
decreasing, the autocorrelation baselines are dropped from the
visibility axis of every per-channel array (each row shrinks to the
cross-correlation count, strictly below `nvis`), the weight is the sum
of the two polarization weights divided by the squared rescale factor
replicated across every channel, and data and model data are the
complex conjugates of the polarization-averaged input planes at the
mirrored channel. -/
theorem get_processed_visibilities_intended_spec
    (chan_freq u v wuvw w0 w1 : Vec) (d0 d1 e0 e1 : CMat) (f0 f1 : BMat)
    (ant1 ant2 : List ℤ) (σ : ℚ)
    (hlen : 2 ≤ chan_freq.length)
    (hinc : chan_freq.Chain' (fun a b => a < b))
    (hσ : σ ≠ 0)
    (hauto : contains_autocorrelations ant1 ant2 = true)
    (ha2 : ant2.length = ant1.length)
    (hu : u.length = ant1.length) (hv : v.length = ant1.length)
    (hw0 : w0.length = ant1.length) (hw1 : w1.length = ant1.length)
    (hd0 : d0.length = chan_freq.length) (hd1 : d1.length = chan_freq.length)
    (he0 : e0.length = chan_freq.length) (he1 : e1.length = chan_freq.length)
    (hf0 : f0.length = chan_freq.length) (hf1 : f1.length = chan_freq.length)
    (hd0r : ∀ r ∈ d0, r.length = ant1.length)
    (hd1r : ∀ r ∈ d1, r.length = ant1.length)
    (he0r : ∀ r ∈ e0, r.length = ant1.length)
    (he1r : ∀ r ∈ e1, r.length = ant1.length)
    (hf0r : ∀ r ∈ f0, r.length = ant1.length)
    (hf1r : ∀ r ∈ f1, r.length = ant1.length) :
    ∃ rec, get_processed_visibilities_intended ⟨chan_freq, u, v, wuvw,
        [d0, d1], [e0, e1], [f0, f1], [w0, w1], ant1, ant2⟩ σ = .ok rec ∧
      rec.frequencies.Chain' (fun a b => b < a) ∧
      (get_crosscorrelation_indexes ant1 ant2).length < ant1.length ∧
      rec.uu.length = chan_freq.length ∧
      rec.vv.length = chan_freq.length ∧
      rec.data.length = chan_freq.length ∧
      rec.model_data.length = chan_freq.length ∧
      rec.flag.length = chan_freq.length ∧
      rec.weight.length = chan_freq.length ∧
      (∀ c < chan_freq.length,
        (rec.uu.getD c []).length = (get_crosscorrelation_indexes ant1 ant2).length ∧
        (rec.vv.getD c []).length = (get_crosscorrelation_indexes ant1 ant2).length ∧
        (rec.data.getD c []).length = (get_crosscorrelation_indexes ant1 ant2).length ∧
        (rec.model_data.getD c []).length = (get_crosscorrelation_indexes ant1 ant2).length ∧
        (rec.flag.getD c []).length = (get_crosscorrelation_indexes ant1 ant2).length ∧
        (rec.weight.getD c []).length = (get_crosscorrelation_indexes ant1 ant2).length) ∧
      (∀ c < chan_freq.length,
        ∀ t < (get_crosscorrelation_indexes ant1 ant2).length,
        (rec.weight.getD c []).getD t 0 =
          (w0.getD ((get_crosscorrelation_indexes ant1 ant2).getD t 0) 0 +
            w1.getD ((get_crosscorrelation_indexes ant1 ant2).getD t 0) 0) / σ ^ 2 ∧
        (rec.data.getD c []).getD t CQ.zero =
          CQ.conj (CQ.divQ (CQ.add
            (CQ.mulQ ((d0.getD (chan_freq.length - 1 - c) []).getD
                ((get_crosscorrelation_indexes ant1 ant2).getD t 0) CQ.zero)
              (w0.getD ((get_crosscorrelation_indexes ant1 ant2).getD t 0) 0))
            (CQ.mulQ ((d1.getD (chan_freq.length - 1 - c) []).getD
                ((get_crosscorrelation_indexes ant1 ant2).getD t 0) CQ.zero)
              (w1.getD ((get_crosscorrelation_indexes ant1 ant2).getD t 0) 0)))
            (w0.getD ((get_crosscorrelation_indexes ant1 ant2).getD t 0) 0 +
              w1.getD ((get_crosscorrelation_indexes ant1 ant2).getD t 0) 0)) ∧
        (rec.model_data.getD c []).getD t CQ.zero =
          CQ.conj (CQ.divQ (CQ.add
            (CQ.mulQ ((e0.getD (chan_freq.length - 1 - c) []).getD
                ((get_crosscorrelation_indexes ant1 ant2).getD t 0) CQ.zero)
              (w0.getD ((get_crosscorrelation_indexes ant1 ant2).getD t 0) 0))
            (CQ.mulQ ((e1.getD (chan_freq.length - 1 - c) []).getD
                ((get_crosscorrelation_indexes ant1 ant2).getD t 0) CQ.zero)
              (w1.getD ((get_crosscorrelation_indexes ant1 ant2).getD t 0) 0)))
            (w0.getD ((get_crosscorrelation_indexes ant1 ant2).getD t 0) 0 +
              w1.getD ((get_crosscorrelation_indexes ant1 ant2).getD t 0) 0))) := by
  refine ⟨_, pipeline_reduction chan_freq u v wuvw w0 w1 d0 d1 e0 e1 f0 f1
    ant1 ant2 σ hlen hinc hσ, ?_⟩
  simp only [List.length_reverse]
  have hxcvis : ∀ i ∈ get_crosscorrelation_indexes ant1 ant2,
      i < ant1.length := fun i hi => xc_mem_lt ant1 ant2 ha2 i hi
  have hbb1 : (broadcast_and_convert_baselines u v chan_freq.reverse).1 =
      chan_freq.reverse.map (fun f => u.map (fun x => 1 / 1000 * x / (cval / f))) :=
    (bcb_eq u v chan_freq.reverse).1
  have hbb2 : (broadcast_and_convert_baselines u v chan_freq.reverse).2 =
      chan_freq.reverse.map (fun f => v.map (fun x => 1 / 1000 * x / (cval / f))) :=
    (bcb_eq u v chan_freq.reverse).2
  have hbb1l : (broadcast_and_convert_baselines u v chan_freq.reverse).1.length =
      chan_freq.length := by
    rw [hbb1]
    simp
  have hbb2l : (broadcast_and_convert_baselines u v chan_freq.reverse).2.length =
      chan_freq.length := by
    rw [hbb2]
    simp
  have hbb1row : ∀ c < chan_freq.length,
      ((broadcast_and_convert_baselines u v chan_freq.reverse).1.getD c []).length =
        ant1.length := by
    intro c hc
    rw [hbb1, getD_map_lt _ chan_freq.reverse c (by simpa using hc) [] 0]
    simpa using hu
  have hbb2row : ∀ c < chan_freq.length,
      ((broadcast_and_convert_baselines u v chan_freq.reverse).2.getD c []).length =
        ant1.length := by
    intro c hc
    rw [hbb2, getD_map_lt _ chan_freq.reverse c (by simpa using hc) [] 0]
    simpa using hv
  have hZdl := pipelineZ_length d0 d1 w0 w1 σ chan_freq.length hd0 hd1
  have hZel := pipelineZ_length e0 e1 w0 w1 σ chan_freq.length he0 he1
  have hZdrl : ∀ c < chan_freq.length,
      ((pipelineZ d0 d1 w0 w1 σ chan_freq.length).getD c []).length =
        ant1.length := fun c hc =>
    pipelineZ_row_length d0 d1 w0 w1 σ _ _ c hd0 hd1 hd0r hd1r hw0 hw1 hc
  have hZerl : ∀ c < chan_freq.length,
      ((pipelineZ e0 e1 w0 w1 σ chan_freq.length).getD c []).length =
        ant1.length := fun c hc =>
    pipelineZ_row_length e0 e1 w0 w1 σ _ _ c he0 he1 he0r he1r hw0 hw1 hc
  have hFll : (matOr f0.reverse f1.reverse).length = chan_freq.length := by
    simp [matOr, List.length_zipWith, hf0, hf1]
  have hFrow : ∀ c < chan_freq.length,
      ((matOr f0.reverse f1.reverse).getD c []).length = ant1.length := by
    intro c hc
    rw [matOr, getD_zipWith_lt vecOr _ _ c
      (by rw [List.length_reverse, hf0]; exact hc)
      (by rw [List.length_reverse, hf1]; exact hc) [] [] []]
    have h0 : (f0.reverse.getD c []).length = ant1.length := by
      rw [getD_reverse_lt f0 c (by omega) []]
      exact hf0r _ (getD_mem_of_lt _ _ (by omega) [])
    have h1 : (f1.reverse.getD c []).length = ant1.length := by
      rw [getD_reverse_lt f1 c (by omega) []]
      exact hf1r _ (getD_mem_of_lt _ _ (by omega) [])
    simp only [vecOr, List.length_zipWith]
    omega
  have hWl : (matAdd
      (List.replicate chan_freq.length (w0.map (fun x => x / σ ^ 2)))
      (List.replicate chan_freq.length (w1.map (fun x => x / σ ^ 2)))).length =
      chan_freq.length := by
    simp [matAdd, List.length_zipWith]
  have hWrowl : (vecAdd (w0.map (fun x => x / σ ^ 2))
      (w1.map (fun x => x / σ ^ 2))).length = ant1.length := by
    simp [vecAdd, List.length_zipWith, hw0, hw1]
  refine ⟨List.chain'_reverse.mpr hinc, xc_length_lt ant1 ant2 ha2 hauto,
    ?_, ?_, ?_, ?_, ?_, ?_, ?_, ?_⟩
  · rw [selectCols_length]
    exact hbb1l
  · rw [selectCols_length]
    exact hbb2l
  · rw [conjMat, List.length_map, selectCols_length]
    exact hZdl
  · rw [conjMat, List.length_map, selectCols_length]
    exact hZel
  · rw [selectCols_length]
    exact hFll
  · rw [selectCols_length]
    exact hWl
  · intro c hc
    refine ⟨?_, ?_, ?_, ?_, ?_, ?_⟩
    · rw [selectCols_getD _ _ c (by omega)]
      exact filterMap_get_length _ _ (fun i hi => by
        rw [hbb1row c hc]
        exact hxcvis i hi)
    · rw [selectCols_getD _ _ c (by omega)]
      exact filterMap_get_length _ _ (fun i hi => by
        rw [hbb2row c hc]
        exact hxcvis i hi)
    · rw [conjMat, getD_map_lt _ _ c (by rw [selectCols_length]; omega) [] [],
        List.length_map, selectCols_getD _ _ c (by omega)]
      exact filterMap_get_length _ _ (fun i hi => by
        rw [hZdrl c hc]
        exact hxcvis i hi)
    · rw [conjMat, getD_map_lt _ _ c (by rw [selectCols_length]; omega) [] [],
        List.length_map, selectCols_getD _ _ c (by omega)]
      exact filterMap_get_length _ _ (fun i hi => by
        rw [hZerl c hc]
        exact hxcvis i hi)
    · rw [selectCols_getD _ _ c (by omega)]
      exact filterMap_get_length _ _ (fun i hi => by
        rw [hFrow c hc]
        exact hxcvis i hi)
    · rw [selectCols_getD _ _ c (by omega)]
      exact filterMap_get_length _ _ (fun i hi => by
        rw [matAdd_replicate_getD _ _ _ c hc, hWrowl]
        exact hxcvis i hi)
  · intro c hc t ht
    have hj : (get_crosscorrelation_indexes ant1 ant2).getD t 0 < ant1.length :=
      hxcvis _ (getD_mem_of_lt _ t ht 0)
    refine ⟨?_, ?_, ?_⟩
    · rw [selectCols_getD _ _ c (by omega),
        filterMap_get_getD _ _ t (fun i hi => by
          rw [matAdd_replicate_getD _ _ _ c hc, hWrowl]
          exact hxcvis i hi) ht 0,
        matAdd_replicate_getD _ _ _ c hc,
        vecAdd, getD_zipWith_lt (· + ·) _ _ _
          (by rw [List.length_map, hw0]; exact hj)
          (by rw [List.length_map, hw1]; exact hj) 0 0 0,
        getD_map_lt _ w0 _ (by omega) 0 0, getD_map_lt _ w1 _ (by omega) 0 0]
      exact div_add_div_same _ _ _
    · rw [conjMat, getD_map_lt _ _ c (by rw [selectCols_length]; omega) [] [],
        selectCols_getD _ _ c (by omega),
        getD_map_lt CQ.conj _ t (by
          rw [filterMap_get_length _ _ (fun i hi => by
            rw [hZdrl c hc]
            exact hxcvis i hi)]
          exact ht) CQ.zero CQ.zero,
        filterMap_get_getD _ _ t (fun i hi => by
          rw [hZdrl c hc]
          exact hxcvis i hi) ht CQ.zero,
        pipelineZ_getD d0 d1 w0 w1 σ chan_freq.length ant1.length c _
          hd0 hd1 hd0r hd1r hw0 hw1 hσ hc hj]
    · rw [conjMat, getD_map_lt _ _ c (by rw [selectCols_length]; omega) [] [],
        selectCols_getD _ _ c (by omega),
        getD_map_lt CQ.conj _ t (by
          rw [filterMap_get_length _ _ (fun i hi => by
            rw [hZerl c hc]
            exact hxcvis i hi)]
          exact ht) CQ.zero CQ.zero,
        filterMap_get_getD _ _ t (fun i hi => by
          rw [hZerl c hc]
          exact hxcvis i hi) ht CQ.zero,
        pipelineZ_getD e0 e1 w0 w1 σ chan_freq.length ant1.length c _
          he0 he1 he0r he1r hw0 hw1 hσ hc hj]

/-- A concrete synthetic query: two increasing channels, two
polarizations, three baselines of which the first is an
autocorrelation. -/
def sampleD0 : CMat := [[⟨1, 1⟩, ⟨2, 0⟩, ⟨3, 0⟩], [⟨4, 0⟩, ⟨5, 1⟩, ⟨6, 0⟩]]

/-- Second polarization data plane of the synthetic query. -/
def sampleD1 : CMat := [[⟨1, 0⟩, ⟨0, 2⟩, ⟨1, 0⟩], [⟨2, 0⟩, ⟨1, 0⟩, ⟨0, 1⟩]]

/-- First polarization flag plane of the synthetic query. -/
def sampleF0 : BMat := [[true, false, false], [false, false, false]]

/-- Second polarization flag plane of the synthetic query. -/
def sampleF1 : BMat := [[false, true, false], [false, false, true]]

/-- The synthetic query record. -/
def sampleQuery : VisibilityQuery :=
  ⟨[1, 2], [10, 20, 30], [40, 50, 60], [0, 0, 0], [sampleD0, sampleD1],
    [sampleD0, sampleD1], [sampleF0, sampleF1], [[1, 2, 3], [3, 2, 1]],
    [0, 1, 2], [0, 2, 1]⟩

/-- The intended behavior on the synthetic query: the record exists,
the frequencies are decreasing, one of three baselines is dropped, the
weight entry is the rescaled polarization sum and the data entry the
conjugated weighted average. -/
theorem get_processed_visibilities_intended_spec_witness :
    ∃ rec, get_processed_visibilities_intended sampleQuery 1 = .ok rec ∧
      rec.frequencies.Chain' (fun a b => b < a) ∧
      (get_crosscorrelation_indexes [0, 1, 2] [0, 2, 1]).length < 3 ∧
      rec.weight.length = 2 ∧
      (rec.weight.getD 0 []).getD 0 0 = 4 ∧
      (rec.data.getD 0 []).getD 0 CQ.zero = ⟨3, -(1 / 2)⟩ := by
  have hxceq : get_crosscorrelation_indexes [0, 1, 2] [0, 2, 1] = [1, 2] := rfl
  obtain ⟨rec, hrec, hchain, hlt, hluu, hlvv, hld, hlmd, hlf, hlw, hrows, hvals⟩ :=
    get_processed_visibilities_intended_spec [1, 2] [10, 20, 30] [40, 50, 60] [0, 0, 0]
      [1, 2, 3] [3, 2, 1] sampleD0 sampleD1 sampleD0 sampleD1 sampleF0 sampleF1
      [0, 1, 2] [0, 2, 1] 1
      (by norm_num) (by norm_num [List.chain'_cons]) (by norm_num) rfl rfl
      rfl rfl rfl rfl rfl rfl rfl rfl rfl rfl
      (by simp [sampleD0]) (by simp [sampleD1]) (by simp [sampleD0])
      (by simp [sampleD1]) (by simp [sampleF0]) (by simp [sampleF1])
  have hw := (hvals 0 (by norm_num) 0 (by rw [hxceq]; norm_num)).1
  have hd := (hvals 0 (by norm_num) 0 (by rw [hxceq]; norm_num)).2.1
  refine ⟨rec, hrec, hchain, hlt, hlw, ?_, ?_⟩
  · rw [hw, hxceq]
    norm_num [List.getD]
  · rw [hd, hxceq]
    norm_num [sampleD0, sampleD1, List.getD, CQ.conj, CQ.divQ, CQ.add,
      CQ.mulQ, CQ.mk.injEq]

/-- C1 (code bug): the pipeline as written never returns the processed
record: its call `broadcast_weights(weight, nchan)` at source line 278
passes the integer channel count where the callee expects a shape
tuple, so every invocation of `get_processed_visibilities` raises the
int-subscript TypeError instead of producing the mapping the claim
describes (the intended record behavior is proved separately of
`get_processed_visibilities_intended`). -/
theorem get_processed_visibilities_crashes (q : VisibilityQuery) (σ : ℚ) :
    get_processed_visibilities q σ = .error intSubscriptMsg := rfl

end Visread
